import Mathlib

/-!
# Shallow embedding of the realtimeorderbook core

This file embeds the algorithmic core of the repository — the order-book
aggregator `processOrderBookData`, the execution simulator `simulateOrder`,
the reconnection policy `attemptReconnect` of the WebSocket service, and the
per-exchange raw-message parsers (`exchangeConfigs[...].parseMessage`) — and
proves properties of the embedded definitions.

Modelling conventions:
* JavaScript numbers are modelled as `ℚ`.  Where a claim hinges on the
  JavaScript behaviour of a division by zero (`0/0 = NaN`), an
  `Option ℚ`-valued mirror of the exact source expression is used, with
  `none` standing for the non-finite result.
* JavaScript arrays are `List`s; `Array.prototype.sort` (a stable sort by
  the comparator) is `List.mergeSort`, which is stable.
* Optional object fields (`total?`, `percentage?`, `timeToFill?`,
  `price: number | null`) are `Option` fields, `none` = absent/null.
* Raw wire messages are modelled by the `JsVal` type further down, with
  explicit `undefined`, `NaN`, and thrown-`TypeError` behaviour.
-/

namespace RTOB

/-- Type `OrderLevel` from src/types/orderbook.ts: a price level with the optional
cumulative `total` and visualization `percentage` fields. -/
structure OrderLevel where
  price : ℚ
  quantity : ℚ
  total : Option ℚ := none
  percentage : Option ℚ := none
deriving DecidableEq, Repr, Inhabited

/-- Type `OrderBook` from src/types/orderbook.ts. -/
structure OrderBook where
  bids : List OrderLevel
  asks : List OrderLevel
  timestamp : ℚ
deriving DecidableEq, Repr

/-- Type `Exchange` from src/types/orderbook.ts: `'OKX' | 'Bybit' | 'Deribit'`. -/
inductive Exchange where
  | OKX
  | Bybit
  | Deribit
deriving DecidableEq, Repr

/-- Type `OrderType` from src/types/orderbook.ts. -/
inductive OrderType where
  | Market
  | Limit
deriving DecidableEq, Repr

/-- Type `OrderSide` from src/types/orderbook.ts. -/
inductive OrderSide where
  | Buy
  | Sell
deriving DecidableEq, Repr

/-- Type `DelayOption` from src/types/orderbook.ts:
`'immediate' | '5s' | '10s' | '30s'`. -/
inductive DelayOption where
  | immediate
  | fiveSeconds
  | tenSeconds
  | thirtySeconds
deriving DecidableEq, Repr

/-- Type `OrderForm` from src/types/orderbook.ts; `price : number | null` is an
`Option`. -/
structure OrderForm where
  exchange : Exchange
  symbol : String
  type : OrderType
  side : OrderSide
  price : Option ℚ
  quantity : ℚ
  delay : DelayOption
deriving DecidableEq, Repr

/-- Type `OrderSimulation` from src/types/orderbook.ts. -/
structure OrderSimulation where
  form : OrderForm
  fillPercentage : ℚ
  marketImpact : ℚ
  slippage : ℚ
  timeToFill : Option String := none
  active : Bool
deriving DecidableEq, Repr

/-! ## Order Book Aggregator (`processOrderBookData`, orderbookService lines 220-259) -/

/-- Bid comparator `(a, b) => b.price - a.price`: `a` sorts before `b` when
the comparator is ≤ 0, i.e. descending price. -/
def bidLe (a b : OrderLevel) : Bool := b.price ≤ a.price

/-- Ask comparator `(a, b) => a.price - b.price`: ascending price. -/
def askLe (a b : OrderLevel) : Bool := a.price ≤ b.price

/-- The `forEach` loop of lines 234-242 assigning the running cumulative
quantity into each level's `total` field; returns the decorated list and the
final running total (`bidTotal`/`askTotal`). -/
def setTotals (start : ℚ) : List OrderLevel → List OrderLevel × ℚ
  | [] => ([], start)
  | l :: ls =>
    let t := start + l.quantity
    let r := setTotals t ls
    ({ l with total := some t } :: r.1, r.2)

/-- Expression `bid.total ? (bid.total / maxTotal) * 100 : 0` (lines 246-252).  As in
JavaScript, a `total` of 0 is falsy and short-circuits to percentage 0, so
the division is never reached with a zero numerator. -/
def jsPercentage (maxTotal t : ℚ) : ℚ := if t = 0 then 0 else t / maxTotal * 100

/-- The `forEach` of lines 246-252 writing the `percentage` field. -/
def setPercentage (maxTotal : ℚ) (l : OrderLevel) : OrderLevel :=
  { l with percentage := some (jsPercentage maxTotal (l.total.getD 0)) }

/-- Function `processOrderBookData` (the spec's `aggregate`): sort bids descending and
asks ascending, truncate to 15 levels, assign cumulative totals, then assign
percentages against the shared denominator `maxTotal`.  This is the value the
function *returns*; the in-place effect on the input is modelled separately
by `processInputAfter`. -/
def processOrderBookData (rawOrderBook : OrderBook) : OrderBook :=
  let bids := (rawOrderBook.bids.mergeSort bidLe).take 15
  let asks := (rawOrderBook.asks.mergeSort askLe).take 15
  let bidsT := setTotals 0 bids
  let asksT := setTotals 0 asks
  let maxTotal := max bidsT.2 asksT.2
  { bids := bidsT.1.map (setPercentage maxTotal),
    asks := asksT.1.map (setPercentage maxTotal),
    timestamp := rawOrderBook.timestamp }

/-- Bid comparator lifted to index-tagged levels. -/
def bidLeIdx (a b : ℕ × OrderLevel) : Bool := bidLe a.2 b.2

/-- Ask comparator lifted to index-tagged levels. -/
def askLeIdx (a b : ℕ × OrderLevel) : Bool := askLe a.2 b.2

/-- Version of `setTotals` on index-tagged levels (the tag records which position of the
input array each shared level object came from). -/
def setTotalsIdx (start : ℚ) : List (ℕ × OrderLevel) → List (ℕ × OrderLevel) × ℚ
  | [] => ([], start)
  | p :: ls =>
    let t := start + p.2.quantity
    let r := setTotalsIdx t ls
    ((p.1, { p.2 with total := some t }) :: r.1, r.2)

/-- The sorted-truncated-decorated view of one side, remembering input
positions: `[...side].sort(cmp).slice(0, 15)` followed by the totals pass. -/
def mutatedSide (le : ℕ × OrderLevel → ℕ × OrderLevel → Bool) (side : List OrderLevel) :
    List (ℕ × OrderLevel) × ℚ :=
  setTotalsIdx 0 ((side.enum.mergeSort le).take 15)

/-- Replay the `forEach` mutations onto the input array: a level whose
position survived sort + `slice(0, 15)` gets its `total` and `percentage`
fields overwritten (its `price`/`quantity` are untouched, exactly as the
JavaScript mutation only assigns those two fields); every other level and the
array order are untouched. -/
def applyMutations (maxTotal : ℚ) (upd : List (ℕ × OrderLevel)) (side : List OrderLevel) :
    List OrderLevel :=
  side.enum.map (fun p =>
    match upd.lookup p.1 with
    | some l =>
      { p.2 with total := l.total,
                 percentage := some (jsPercentage maxTotal (l.total.getD 0)) }
    | none => p.2)

/-- The state of the *input* book after `processOrderBookData` returns.
`[...rawOrderBook.bids]` copies the array but shares the level objects, so
the `forEach` mutations of lines 234-252 write into the input's own level
objects that survive the sort-and-truncate; levels dropped by
`.slice(0, 15)` and the input array itself are untouched.  The stable
`mergeSort` on index-tagged levels reproduces which input positions the
stable JavaScript sort places in the first 15. -/
def processInputAfter (rawOrderBook : OrderBook) : OrderBook :=
  let bidsM := mutatedSide bidLeIdx rawOrderBook.bids
  let asksM := mutatedSide askLeIdx rawOrderBook.asks
  let maxTotal := max bidsM.2 asksM.2
  { bids := applyMutations maxTotal bidsM.1 rawOrderBook.bids,
    asks := applyMutations maxTotal asksM.1 rawOrderBook.asks,
    timestamp := rawOrderBook.timestamp }

/-! ## Execution Simulator (`simulateOrder`, orderbookService lines 261-393) -/

/-- Result of the consumption loop. -/
structure ConsumeResult where
  remainingQuantity : ℚ
  totalValue : ℚ
  filledLevels : ℕ
deriving DecidableEq, Repr

/-- The consumption loop shared by the market path (lines 280-287) and the
limit path (lines 322-328): walk the levels from the front, at each level
consume `fillQuantity = min(remainingQuantity, level.quantity)`, accumulate
`totalValue += fillQuantity * level.price`, count the touched levels, and
stop as soon as the remaining quantity is ≤ 0. -/
def consume : List OrderLevel → ℚ → ℚ → ℕ → ConsumeResult
  | [], r, tv, f => ⟨r, tv, f⟩
  | level :: rest, r, tv, f =>
    if r ≤ 0 then ⟨r, tv, f⟩
    else
      let fillQuantity := min r level.quantity
      consume rest (r - fillQuantity) (tv + fillQuantity * level.price) (f + 1)

/-- The side the order consumes: asks for Buy, bids for Sell (lines 274, 311). -/
def consumedLevels (form : OrderForm) (orderBook : OrderBook) : List OrderLevel :=
  match form.side with
  | .Buy => orderBook.asks
  | .Sell => orderBook.bids

/-- Line `const orderPrice = form.price || 0` (line 310): both `null` and 0 are
falsy. -/
def limitOrderPrice (form : OrderForm) : ℚ := form.price.getD 0

/-- Fillable levels of a limit order (lines 315-317): Buy fills levels priced
at or below the limit, Sell fills levels priced at or above it. -/
def limitFillable (form : OrderForm) (orderBook : OrderBook) : List OrderLevel :=
  match form.side with
  | .Buy => (consumedLevels form orderBook).filter
      (fun level => level.price ≤ limitOrderPrice form)
  | .Sell => (consumedLevels form orderBook).filter
      (fun level => limitOrderPrice form ≤ level.price)

/-- The filled amount `form.quantity - remainingQuantity` of the limit path. -/
def limitFilled (form : OrderForm) (orderBook : OrderBook) : ℚ :=
  form.quantity - (consume (limitFillable form orderBook) form.quantity 0 0).remainingQuantity

/-- Top-of-book price on the consumed side (line 291).  The call sites are
guarded by the non-empty check, so the `headD` default is never read. -/
def topOfConsumedSide (form : OrderForm) (orderBook : OrderBook) : ℚ :=
  match form.side with
  | .Buy => (orderBook.asks.headD default).price
  | .Sell => (orderBook.bids.headD default).price

/-- Lines 338-349: scan the order's own resting side for the first level the
limit price would beat; the loop leaves `position = 0` when no level
satisfies the test. -/
def findPosition (side : OrderSide) (orderPrice : ℚ) (relevantLevels : List OrderLevel) : ℕ :=
  match side with
  | .Buy => (relevantLevels.findIdx? (fun level => level.price < orderPrice)).getD 0
  | .Sell => (relevantLevels.findIdx? (fun level => orderPrice < level.price)).getD 0

/-- Function `estimateTimeToFill` (lines 375-393). -/
def estimateTimeToFill (delay : DelayOption) (fillPercentage : ℚ) : String :=
  match delay with
  | .immediate => if 100 ≤ fillPercentage then "Immediate" else "Partial fill"
  | d =>
    let delayMs : ℚ :=
      match d with
      | .fiveSeconds => 5000
      | .tenSeconds => 10000
      | _ => 30000
    let secs := toString (delayMs / 1000)
    if 100 ≤ fillPercentage then "~" ++ secs ++ "s"
    else if 75 < fillPercentage then ">" ++ secs ++ "s"
    else if 50 < fillPercentage then ">>" ++ secs ++ "s"
    else if 0 < fillPercentage then ">>>" ++ secs ++ "s"
    else "Unlikely to fill"

/-- The zero-valued inactive result of lines 263-269 (its `timeToFill` field
is absent). -/
def inactiveResult (form : OrderForm) : OrderSimulation :=
  { form := form, fillPercentage := 0, marketImpact := 0, slippage := 0,
    timeToFill := none, active := false }

/-- Function `simulateOrder` (lines 261-373).  Divisions are on `ℚ` (where `x / 0 = 0`);
the JavaScript `0/0 = NaN` behaviour of the unguarded market-path division is
modelled exactly by `marketSlippageJs` below.  The limit path's
`totalValue / (form.quantity - remainingQuantity || 1)` guard is reproduced
with an explicit fallback-to-1 on a zero filled amount. -/
def simulateOrder (form : OrderForm) (orderBook : OrderBook) : OrderSimulation :=
  if orderBook.bids = [] ∨ orderBook.asks = [] then inactiveResult form
  else
    match form.type with
    | .Market =>
      let levels := consumedLevels form orderBook
      let c := consume levels form.quantity 0 0
      let fillPercentage := (form.quantity - c.remainingQuantity) / form.quantity * 100
      let averagePrice := c.totalValue / (form.quantity - c.remainingQuantity)
      let bestPrice := topOfConsumedSide form orderBook
      let slippage :=
        match form.side with
        | .Buy => (averagePrice - bestPrice) / bestPrice * 100
        | .Sell => (bestPrice - averagePrice) / bestPrice * 100
      let marketImpact := (c.filledLevels : ℚ) / (levels.length : ℚ) * 100
      { form := form, fillPercentage := fillPercentage, marketImpact := marketImpact,
        slippage := max 0 slippage, timeToFill := some "Immediate", active := true }
    | .Limit =>
      let orderPrice := limitOrderPrice form
      let levels := consumedLevels form orderBook
      let fillableLevels := limitFillable form orderBook
      let c := consume fillableLevels form.quantity 0 0
      let fillPercentage := (form.quantity - c.remainingQuantity) / form.quantity * 100
      let marketImpact :=
        if fillPercentage < 100 then
          let relevantLevels :=
            match form.side with
            | .Buy => orderBook.bids
            | .Sell => orderBook.asks
          let depth := relevantLevels.length
          let position := findPosition form.side orderPrice relevantLevels
          (1 - (position : ℚ) / (depth : ℚ)) * 50
        else (fillableLevels.length : ℚ) / (levels.length : ℚ) * 75
      let filled := form.quantity - c.remainingQuantity
      let averageFilledPrice := c.totalValue / (if filled = 0 then 1 else filled)
      let slippage :=
        match form.side with
        | .Buy => (averageFilledPrice - orderPrice) / orderPrice * 100
        | .Sell => (orderPrice - averageFilledPrice) / orderPrice * 100
      { form := form, fillPercentage := fillPercentage,
        marketImpact := min 100 marketImpact, slippage := max 0 slippage,
        timeToFill := some (estimateTimeToFill form.delay fillPercentage),
        active := true }

/-- JavaScript division with a zero denominator made explicit: `none` stands
for the non-finite result (`0/0 = NaN`, `x/0 = ±Infinity`). -/
def jsDiv (a b : ℚ) : Option ℚ := if b = 0 then none else some (a / b)

/-- The market-path slippage of lines 289-303 with the JavaScript semantics
of the unguarded `averagePrice = totalValue / (form.quantity -
remainingQuantity)` made explicit: when nothing fills the denominator is 0,
`averagePrice` is `0/0 = NaN`, the slippage formula propagates NaN and
`Math.max(0, NaN)` is NaN — modelled as `none`. -/
def marketSlippageJs (form : OrderForm) (orderBook : OrderBook) : Option ℚ :=
  let levels := consumedLevels form orderBook
  let c := consume levels form.quantity 0 0
  match jsDiv c.totalValue (form.quantity - c.remainingQuantity) with
  | none => none
  | some averagePrice =>
    let bestPrice := topOfConsumedSide form orderBook
    let slippage :=
      match form.side with
      | .Buy => (averagePrice - bestPrice) / bestPrice * 100
      | .Sell => (bestPrice - averagePrice) / bestPrice * 100
    some (max 0 slippage)

/-! ## Feed Connection Manager reconnection policy
(`attemptReconnect`, websocketService lines 174-194) -/

/-- Constant `maxReconnectAttempts = 5` (line 107). -/
def maxReconnectAttempts : ℕ := 5

/-- One call of `attemptReconnect` as a transition on the attempt counter:
bail out scheduling nothing once the counter has reached the cap, otherwise
increment the counter *first* and then compute
`delay = Math.min(1000 * Math.pow(2, this.reconnectAttempts), 30000)`.
Returns the new counter and `some delay` when a reconnect was scheduled. -/
def attemptReconnect (reconnectAttempts : ℕ) : ℕ × Option ℕ :=
  if maxReconnectAttempts ≤ reconnectAttempts then (reconnectAttempts, none)
  else
    let a := reconnectAttempts + 1
    (a, some (min (1000 * 2 ^ a) 30000))

/-- The outcomes of `n` consecutive failed connection attempts starting from
attempt counter `s` (each close event calls `attemptReconnect` once). -/
def reconnectDelays : ℕ → ℕ → List (Option ℕ)
  | _, 0 => []
  | s, n + 1 =>
    let r := attemptReconnect s
    r.2 :: reconnectDelays r.1 n

/-! ## Exchange Adapter Registry: raw-message parsers
(`exchangeConfigs`, websocketService lines 9-102)

The raw wire world is modelled by `JsVal`.  The parsers return
`Except String (Option ParsedBook)`: `.error e` models the function itself
throwing an uncaught exception `e`, `.ok none` a `return null`, and
`.ok (some book)` a successfully normalized book.  A `try { } catch { }`
block is `jsTry`, which converts a thrown exception into the `null` return.
-/

/-- JSON/JavaScript values as seen by the parsers.  `undefined` is the
JavaScript `undefined` produced by absent properties and out-of-range
indices; `nan` is the float NaN that `parseFloat` yields on non-numeric
text. -/
inductive JsVal where
  | undefined : JsVal
  | jnull : JsVal
  | bool : Bool → JsVal
  | num : ℚ → JsVal
  | nan : JsVal
  | str : String → JsVal
  | arr : List JsVal → JsVal
  | obj : List (String × JsVal) → JsVal

/-- First binding of a key in an object literal (`undefined` when absent). -/
def lookupField : List (String × JsVal) → String → JsVal
  | [], _ => .undefined
  | (k, v) :: rest, key => if k = key then v else lookupField rest key

/-- Property access `o.k` on a value that is not `null`/`undefined`:
objects yield the stored field or `undefined`; primitives and arrays have
none of the named fields the parsers read, hence `undefined`. -/
def JsVal.get : JsVal → String → JsVal
  | .obj fields, key => lookupField fields key
  | _, _ => .undefined

/-- Property access with the JavaScript TypeError on a `null`/`undefined`
base made explicit. -/
def JsVal.getEx : JsVal → String → Except String JsVal
  | .undefined, _ => .error "TypeError"
  | .jnull, _ => .error "TypeError"
  | v, key => .ok (v.get key)

/-- Index access `a[i]`, with the TypeError on a `null`/`undefined` base
made explicit; out-of-range and non-array bases give `undefined`. -/
def JsVal.idxEx : JsVal → ℕ → Except String JsVal
  | .undefined, _ => .error "TypeError"
  | .jnull, _ => .error "TypeError"
  | .arr xs, i => .ok (xs.getD i .undefined)
  | _, _ => .ok .undefined

/-- JavaScript truthiness. -/
def JsVal.truthy : JsVal → Bool
  | .undefined => false
  | .jnull => false
  | .bool b => b
  | .num q => q ≠ 0
  | .nan => false
  | .str s => s ≠ ""
  | .arr _ => true
  | .obj _ => true

/-- The JavaScript `in` operator `'k' in v`: property test on objects,
`false` on arrays (which carry no such named key here), TypeError on
primitives. -/
def JsVal.hasPropEx : JsVal → String → Except String Bool
  | .obj fields, key => .ok (fields.any (fun p => p.1 = key))
  | .arr _, _ => .ok false
  | _, _ => .error "TypeError"

/-- Test `s.indexOf(pat) !== -1`: `pat` occurs somewhere in `s`. -/
def hasSubstring (s pat : String) : Bool :=
  s.toList.tails.any (fun t => pat.toList.isPrefixOf t)

/-- Longest leading digit run of a character list, and the rest. -/
def takeDigits : List Char → List Char × List Char
  | [] => ([], [])
  | c :: rest =>
    if c.isDigit then
      let r := takeDigits rest
      (c :: r.1, r.2)
    else ([], c :: rest)

/-- Numeric value of a digit run. -/
def digitsVal (ds : List Char) : ℕ :=
  ds.foldl (fun acc c => acc * 10 + (c.toNat - 48)) 0

/-- Simplified decimal grammar of `parseFloat`: optional sign, digits with an
optional fractional part, longest numeric prefix, `none` (NaN) when no digit
is found.  (The exponent/Infinity/whitespace forms of the full JavaScript
grammar do not occur in any exchange payload modelled here.) -/
def parseDecimal (s : String) : Option ℚ :=
  let cs := s.toList
  let signAndRest : ℚ × List Char :=
    match cs with
    | '-' :: rest => (-1, rest)
    | '+' :: rest => (1, rest)
    | _ => (1, cs)
  let ip := takeDigits signAndRest.2
  let fp : List Char :=
    match ip.2 with
    | '.' :: rest => (takeDigits rest).1
    | _ => []
  if ip.1 = [] ∧ fp = [] then none
  else some (signAndRest.1 * ((digitsVal ip.1 : ℚ) + (digitsVal fp : ℚ) / (10 : ℚ) ^ fp.length))

/-- Builtin `parseFloat(x)`: the argument is coerced to text first, so a number
round-trips and non-numeric values give NaN. -/
def jsParseFloat : JsVal → JsVal
  | .num q => .num q
  | .str s =>
    match parseDecimal s with
    | some q => .num q
    | none => .nan
  | _ => .nan

/-- A normalized price level as built by the parsers; OKX/Bybit store
`parseFloat` results (number or NaN), Deribit stores the raw entries
verbatim. -/
structure JsLevel where
  price : JsVal
  quantity : JsVal

/-- The object a parser returns on success:
`{ bids, asks, timestamp }`. -/
structure ParsedBook where
  bids : List JsLevel
  asks : List JsLevel
  timestamp : JsVal

/-- Block `try { body } catch { ... return null }`: a thrown exception inside the
body becomes the `null` result. -/
def jsTry (x : Except String (Option ParsedBook)) : Except String (Option ParsedBook) :=
  match x with
  | .error _ => .ok none
  | ok => ok

/-- Mapper `(bid: string[]) => ({ price: parseFloat(bid[0]), quantity:
parseFloat(bid[1]) })` — index access on a `null` element throws. -/
def levelFromStrings (v : JsVal) : Except String JsLevel :=
  match v.idxEx 0 with
  | .error e => .error e
  | .ok p =>
    match v.idxEx 1 with
    | .error e => .error e
    | .ok q => .ok ⟨jsParseFloat p, jsParseFloat q⟩

/-- Mapper `(bid) => ({ price: bid[0], quantity: bid[1] })` — the Deribit parser
takes entries verbatim, with no numeric conversion. -/
def levelVerbatim (v : JsVal) : Except String JsLevel :=
  match v.idxEx 0 with
  | .error e => .error e
  | .ok p =>
    match v.idxEx 1 with
    | .error e => .error e
    | .ok q => .ok ⟨p, q⟩

/-- Semantics of `Array.prototype.map` over a fallible per-element function: the first
thrown exception wins, as in JavaScript. -/
def mapLevels (f : JsVal → Except String JsLevel) : List JsVal → Except String (List JsLevel)
  | [] => .ok []
  | v :: rest =>
    match f v with
    | .error e => .error e
    | .ok l =>
      match mapLevels f rest with
      | .error e => .error e
      | .ok ls => .ok (l :: ls)

/-- Expression `typeof msg.data === 'string' ? JSON.parse(msg.data) : msg.data`.
`jsonParse` abstracts the `JSON.parse` builtin; `none` models it throwing a
SyntaxError (which the enclosing `catch` turns into `null`). -/
def resolveData (jsonParse : String → Option JsVal) : JsVal → Except String JsVal
  | .str s =>
    match jsonParse s with
    | some v => .ok v
    | none => .error "SyntaxError"
  | v => .ok v

/-- Body of the OKX `try` block (lines 24-38) applied to the resolved
`data` value. -/
def parseBodyOKX (now : ℚ) (data : JsVal) : Except String (Option ParsedBook) :=
  match data with
  | .arr xs =>
    -- `!Array.isArray(data) || !data[0] || !('asks' in data[0]) || !('bids' in data[0])`
    let first := xs.getD 0 .undefined
    if ¬ first.truthy then .ok none
    else
      match first.hasPropEx "asks" with
      | .error e => .error e
      | .ok hasAsks =>
        if ¬ hasAsks then .ok none
        else
          match first.hasPropEx "bids" with
          | .error e => .error e
          | .ok hasBids =>
            if ¬ hasBids then .ok none
            else
              match first.get "bids", first.get "asks" with
              | .arr bs, .arr as1 =>
                (match mapLevels levelFromStrings bs, mapLevels levelFromStrings as1 with
                  | .ok bids, .ok asks => .ok (some ⟨bids, asks, .num now⟩)
                  | .error e, _ => .error e
                  | _, .error e => .error e)
              | _, _ => .error "TypeError"
  | _ => .ok none

/-- Parser `exchangeConfigs.OKX.parseMessage` (lines 19-39).  `now` is
`new Date().getTime()`; OKX stamps the timestamp from the wall clock
unconditionally.  The initial `msg.data` access sits before the `try`, so a
`null`/`undefined` message makes the function itself throw. -/
def parseMessageOKX (jsonParse : String → Option JsVal) (now : ℚ) (message : JsVal) :
    Except String (Option ParsedBook) :=
  match message.getEx "data" with
  | .error e => .error e
  | .ok d =>
    if ¬ d.truthy then .ok none
    else jsTry (match resolveData jsonParse d with
      | .error e => .error e
      | .ok data => parseBodyOKX now data)

/-- Body of the Bybit `try` block (lines 52-62) applied to the resolved
`data` value. -/
def parseBodyBybit (now : ℚ) (data : JsVal) : Except String (Option ParsedBook) :=
  -- `if (!data || !('a' in data) || !('b' in data)) return null`
  if ¬ data.truthy then .ok none
  else
    match data.hasPropEx "a" with
    | .error e => .error e
    | .ok hasA =>
      if ¬ hasA then .ok none
      else
        match data.hasPropEx "b" with
        | .error e => .error e
        | .ok hasB =>
          if ¬ hasB then .ok none
          else
            match data.get "b", data.get "a" with
            | .arr bs, .arr as1 =>
              (match mapLevels levelFromStrings (bs.take 50),
                     mapLevels levelFromStrings (as1.take 50) with
                | .ok bids, .ok asks =>
                  let ts := data.get "ts"
                  -- `timestamp: orderBookData.ts || new Date().getTime()`
                  .ok (some ⟨bids, asks, if ts.truthy then ts else .num now⟩)
                | .error e, _ => .error e
                | _, .error e => .error e)
            | _, _ => .error "TypeError"

/-- Parser `exchangeConfigs.Bybit.parseMessage` (lines 47-67).  The guard requires a
truthy `msg.data` and a string `msg.topic` containing "orderbook". -/
def parseMessageBybit (jsonParse : String → Option JsVal) (now : ℚ) (message : JsVal) :
    Except String (Option ParsedBook) :=
  match message.getEx "data" with
  | .error e => .error e
  | .ok d =>
    if ¬ d.truthy then .ok none
    else
      let topicOk : Bool :=
        match message.get "topic" with
        | .str t => hasSubstring t "orderbook"
        | _ => false
      if ¬ topicOk then .ok none
      else jsTry (match resolveData jsonParse d with
        | .error e => .error e
        | .ok data => parseBodyBybit now data)

/-- Body of the Deribit `try` block (lines 84-98) applied to
`msg.params.data`: entries are passed through verbatim (no `parseFloat`). -/
def parseBodyDeribit (now : ℚ) (d : JsVal) : Except String (Option ParsedBook) :=
  match d.get "bids", d.get "asks" with
  | .arr bs, .arr as1 =>
    (match mapLevels levelVerbatim bs, mapLevels levelVerbatim as1 with
      | .ok bids, .ok asks =>
        let ts := d.get "timestamp"
        -- `timestamp: data.timestamp || new Date().getTime()`
        .ok (some ⟨bids, asks, if ts.truthy then ts else .num now⟩)
      | .error e, _ => .error e
      | _, .error e => .error e)
  | _, _ => .error "TypeError"

/-- Evaluation of `msg.params?.data` for a non-null `msg`: the `?.` maps a
`null`/`undefined` `params` to `undefined` instead of throwing. -/
def deribitData (message : JsVal) : JsVal :=
  match message.get "params" with
  | .undefined => JsVal.undefined
  | .jnull => JsVal.undefined
  | p => p.get "data"

/-- Parser `exchangeConfigs.Deribit.parseMessage` (lines 79-100).  The guard is
`if (!msg.params?.data) return null`; the `msg.params` access itself throws
on a `null`/`undefined` message, while the `?.` only guards a
`null`/`undefined` `params`. -/
def parseMessageDeribit (now : ℚ) (message : JsVal) : Except String (Option ParsedBook) :=
  match message.getEx "params" with
  | .error e => .error e
  | .ok params =>
    let d :=
      match params with
      | .undefined => JsVal.undefined
      | .jnull => JsVal.undefined
      | p => p.get "data"
    if ¬ d.truthy then .ok none
    else jsTry (parseBodyDeribit now d)

/-- Dispatcher `exchangeConfigs[exchange].parseMessage` — the `normalize` of the spec. -/
def normalize (exchange : Exchange) (jsonParse : String → Option JsVal) (now : ℚ)
    (message : JsVal) : Except String (Option ParsedBook) :=
  match exchange with
  | .OKX => parseMessageOKX jsonParse now message
  | .Bybit => parseMessageBybit jsonParse now message
  | .Deribit => parseMessageDeribit now message

/-- The leading order-book envelope guard of each exchange's parser: OKX
requires a truthy `msg.data`; Bybit a truthy `msg.data` plus a string
`msg.topic` containing "orderbook"; Deribit a truthy `msg.params?.data`.
Subscription acks, heartbeats and unrelated channels all fail this guard. -/
def isOrderBookCandidate (exchange : Exchange) (message : JsVal) : Bool :=
  match exchange with
  | .OKX => (message.get "data").truthy
  | .Bybit =>
    (message.get "data").truthy &&
      (match message.get "topic" with
        | .str t => hasSubstring t "orderbook"
        | _ => false)
  | .Deribit =>
    (match message.get "params" with
      | .undefined => JsVal.undefined
      | .jnull => JsVal.undefined
      | p => p.get "data").truthy

/-! ## Helper lemmas about the consumption loop -/

/-- The remaining quantity after the consumption loop stays within `[0, r]`
when the initial remaining quantity and all level quantities are
non-negative. -/
theorem consume_remaining_bounds (ls : List OrderLevel) (r tv : ℚ) (f : ℕ)
    (hr : 0 ≤ r) (hq : ∀ l ∈ ls, 0 ≤ l.quantity) :
    0 ≤ (consume ls r tv f).remainingQuantity ∧
      (consume ls r tv f).remainingQuantity ≤ r := by
  induction ls generalizing r tv f with
  | nil => exact ⟨hr, le_refl r⟩
  | cons l rest ih =>
    simp only [consume]
    by_cases h : r ≤ 0
    · simp only [if_pos h]
      exact ⟨hr, le_refl r⟩
    · simp only [if_neg h]
      have h0 : 0 < r := not_le.mp h
      have hql : 0 ≤ l.quantity := hq l (by simp)
      have hmin : min r l.quantity ≤ r := min_le_left _ _
      have hmin0 : 0 ≤ min r l.quantity := le_min h0.le hql
      have := ih (r - min r l.quantity) (tv + min r l.quantity * l.price) (f + 1)
        (by linarith) (fun x hx => hq x (by simp [hx]))
      exact ⟨this.1, le_trans this.2 (by linarith)⟩

/-- Buy-direction value bound: consuming levels all priced at or below `p`
accrues at most `p` per unit actually consumed. -/
theorem consume_totalValue_le (ls : List OrderLevel) (r tv : ℚ) (f : ℕ) (p : ℚ)
    (hp : ∀ l ∈ ls, l.price ≤ p) (hq : ∀ l ∈ ls, 0 ≤ l.quantity) :
    (consume ls r tv f).totalValue ≤
      tv + (r - (consume ls r tv f).remainingQuantity) * p := by
  induction ls generalizing r tv f with
  | nil => simp [consume]
  | cons l rest ih =>
    simp only [consume]
    by_cases h : r ≤ 0
    · simp [if_pos h]
    · simp only [if_neg h]
      have h0 : 0 < r := not_le.mp h
      have hql : 0 ≤ l.quantity := hq l (by simp)
      have hpl : l.price ≤ p := hp l (by simp)
      have hmin0 : 0 ≤ min r l.quantity := le_min h0.le hql
      have hrec := ih (r - min r l.quantity) (tv + min r l.quantity * l.price) (f + 1)
        (fun x hx => hp x (by simp [hx])) (fun x hx => hq x (by simp [hx]))
      have hmul : min r l.quantity * l.price ≤ min r l.quantity * p :=
        mul_le_mul_of_nonneg_left hpl hmin0
      calc (consume rest (r - min r l.quantity)
              (tv + min r l.quantity * l.price) (f + 1)).totalValue
          ≤ tv + min r l.quantity * l.price +
              ((r - min r l.quantity) -
                (consume rest (r - min r l.quantity)
                  (tv + min r l.quantity * l.price) (f + 1)).remainingQuantity) * p :=
            hrec
        _ ≤ tv + (r - (consume rest (r - min r l.quantity)
                (tv + min r l.quantity * l.price) (f + 1)).remainingQuantity) * p := by
            ring_nf
            linarith

/-- Sell-direction value bound: consuming levels all priced at or above `p`
accrues at least `p` per unit actually consumed. -/
theorem consume_totalValue_ge (ls : List OrderLevel) (r tv : ℚ) (f : ℕ) (p : ℚ)
    (hp : ∀ l ∈ ls, p ≤ l.price) (hq : ∀ l ∈ ls, 0 ≤ l.quantity) :
    tv + (r - (consume ls r tv f).remainingQuantity) * p ≤
      (consume ls r tv f).totalValue := by
  induction ls generalizing r tv f with
  | nil => simp [consume]
  | cons l rest ih =>
    simp only [consume]
    by_cases h : r ≤ 0
    · simp [if_pos h]
    · simp only [if_neg h]
      have h0 : 0 < r := not_le.mp h
      have hql : 0 ≤ l.quantity := hq l (by simp)
      have hpl : p ≤ l.price := hp l (by simp)
      have hmin0 : 0 ≤ min r l.quantity := le_min h0.le hql
      have hrec := ih (r - min r l.quantity) (tv + min r l.quantity * l.price) (f + 1)
        (fun x hx => hp x (by simp [hx])) (fun x hx => hq x (by simp [hx]))
      have hmul : min r l.quantity * p ≤ min r l.quantity * l.price :=
        mul_le_mul_of_nonneg_left hpl hmin0
      calc tv + (r - (consume rest (r - min r l.quantity)
              (tv + min r l.quantity * l.price) (f + 1)).remainingQuantity) * p
          ≤ tv + min r l.quantity * l.price +
              ((r - min r l.quantity) -
                (consume rest (r - min r l.quantity)
                  (tv + min r l.quantity * l.price) (f + 1)).remainingQuantity) * p := by
            ring_nf
            linarith
        _ ≤ (consume rest (r - min r l.quantity)
              (tv + min r l.quantity * l.price) (f + 1)).totalValue := hrec

/-- Unfolding of the market branch of `simulateOrder` on a book with both
sides non-empty. -/
theorem simulateOrder_market_eq (form : OrderForm) (orderBook : OrderBook)
    (htype : form.type = .Market)
    (hb : orderBook.bids ≠ []) (ha : orderBook.asks ≠ []) :
    simulateOrder form orderBook =
      (let levels := consumedLevels form orderBook
       let c := consume levels form.quantity 0 0
       let fillPercentage := (form.quantity - c.remainingQuantity) / form.quantity * 100
       let averagePrice := c.totalValue / (form.quantity - c.remainingQuantity)
       let bestPrice := topOfConsumedSide form orderBook
       let slippage :=
         match form.side with
         | .Buy => (averagePrice - bestPrice) / bestPrice * 100
         | .Sell => (bestPrice - averagePrice) / bestPrice * 100
       let marketImpact := (c.filledLevels : ℚ) / (levels.length : ℚ) * 100
       { form := form, fillPercentage := fillPercentage, marketImpact := marketImpact,
         slippage := max 0 slippage, timeToFill := some "Immediate", active := true }) := by
  have hcond : ¬ (orderBook.bids = [] ∨ orderBook.asks = []) := by simp [hb, ha]
  simp only [simulateOrder, if_neg hcond, htype]

/-- Unfolding of the limit branch of `simulateOrder` on a book with both
sides non-empty. -/
theorem simulateOrder_limit_eq (form : OrderForm) (orderBook : OrderBook)
    (htype : form.type = .Limit)
    (hb : orderBook.bids ≠ []) (ha : orderBook.asks ≠ []) :
    simulateOrder form orderBook =
      (let orderPrice := limitOrderPrice form
       let levels := consumedLevels form orderBook
       let fillableLevels := limitFillable form orderBook
       let c := consume fillableLevels form.quantity 0 0
       let fillPercentage := (form.quantity - c.remainingQuantity) / form.quantity * 100
       let marketImpact :=
         if fillPercentage < 100 then
           let relevantLevels :=
             match form.side with
             | .Buy => orderBook.bids
             | .Sell => orderBook.asks
           let depth := relevantLevels.length
           let position := findPosition form.side orderPrice relevantLevels
           (1 - (position : ℚ) / (depth : ℚ)) * 50
         else (fillableLevels.length : ℚ) / (levels.length : ℚ) * 75
       let filled := form.quantity - c.remainingQuantity
       let averageFilledPrice := c.totalValue / (if filled = 0 then 1 else filled)
       let slippage :=
         match form.side with
         | .Buy => (averageFilledPrice - orderPrice) / orderPrice * 100
         | .Sell => (orderPrice - averageFilledPrice) / orderPrice * 100
       { form := form, fillPercentage := fillPercentage,
         marketImpact := min 100 marketImpact, slippage := max 0 slippage,
         timeToFill := some (estimateTimeToFill form.delay fillPercentage),
         active := true }) := by
  have hcond : ¬ (orderBook.bids = [] ∨ orderBook.asks = []) := by simp [hb, ha]
  simp only [simulateOrder, if_neg hcond, htype]

/-! ## Claim theorems -/

/-- Claim C5 (confirmed).  Starting from a fresh attempt counter, five
consecutive failures produce exactly the delays 2000ms, 4000ms, 8000ms,
16000ms and 30000ms (the counter is incremented before
`min(1000 * 2^attempt, 30000)` is computed, which is why the sequence starts
at 2000 and is capped at 30000 on the fifth attempt), and the sixth close
event schedules no further reconnection attempt. -/
theorem attemptReconnect_backoff_sequence :
    reconnectDelays 0 6 =
      [some 2000, some 4000, some 8000, some 16000, some 30000, none] := by
  decide

/-- Claim C3 (confirmed).  If either side of the book is empty,
`simulateOrder` returns the zero-valued inactive result; and on every input
it returns either that inactive result or an active `OrderSimulation` — the
embedded function is total, mirroring that the source never throws (its only
operations are arithmetic, which in JavaScript produces numbers, `NaN` or
`±Infinity` rather than exceptions). -/
theorem simulateOrder_failSoft (form : OrderForm) (orderBook : OrderBook) :
    ((orderBook.bids = [] ∨ orderBook.asks = []) →
      simulateOrder form orderBook = inactiveResult form) ∧
    (simulateOrder form orderBook = inactiveResult form ∨
      (simulateOrder form orderBook).active = true) := by
  constructor
  · intro h
    simp only [simulateOrder, if_pos h]
  · by_cases h : orderBook.bids = [] ∨ orderBook.asks = []
    · exact Or.inl (by simp only [simulateOrder, if_pos h])
    · right
      simp only [simulateOrder, if_neg h]
      cases htype : form.type <;> simp

/-- Concrete instance for `simulateOrder_failSoft`: an empty bid side. -/
def c3Form : OrderForm :=
  { exchange := .OKX, symbol := "BTC-USDT", type := .Market, side := .Buy,
    price := none, quantity := 1, delay := .immediate }

/-- Book with an empty bid side. -/
def c3Book : OrderBook :=
  { bids := [], asks := [{ price := 100, quantity := 1 }], timestamp := 0 }

/-- Witness for C3: on a book whose bid side is empty the simulator
returns the inactive result. -/
theorem simulateOrder_failSoft_witness :
    c3Book.bids = [] ∧ simulateOrder c3Form c3Book = inactiveResult c3Form :=
  ⟨rfl, (simulateOrder_failSoft c3Form c3Book).1 (Or.inl rfl)⟩

/-- Failing form for C6: a pre-validated Market Buy for quantity 1. -/
def c6Form : OrderForm :=
  { exchange := .OKX, symbol := "BTC-USDT", type := .Market, side := .Buy,
    price := none, quantity := 1, delay := .immediate }

/-- Failing book for C6: non-negative prices and quantities, both sides
non-empty, but the consumed (ask) side carries only a zero-quantity level —
a shape the adapter registry explicitly passes through (§4.1: zero-quantity
levels are literal translations of level-removal deltas). -/
def c6Book : OrderBook :=
  { bids := [{ price := 99, quantity := 1 }],
    asks := [{ price := 100, quantity := 0 }], timestamp := 0 }

/-- Claim C6 (code_bug).  At `c6Form`/`c6Book` the market order fills nothing,
so the source's unguarded `averagePrice = totalValue / (form.quantity -
remainingQuantity)` divides `0 / 0`, which in JavaScript is NaN;
`Math.max(0, NaN)` is NaN, so the returned `slippage` is NaN — violating
`slippagePercentage ≥ 0`.  (The limit path guards the same division with
`|| 1`; the market path omits the guard.)  `marketSlippageJs` mirrors those
source lines with the non-finite division made explicit, and evaluates to
`none` here. -/
theorem marketSlippageJs_nan_at_zero_fill :
    marketSlippageJs c6Form c6Book = none ∧
    (0 : ℚ) < c6Form.quantity ∧
    (simulateOrder c6Form c6Book).fillPercentage = 0 := by
  refine ⟨?_, by norm_num [c6Form], ?_⟩
  · norm_num [marketSlippageJs, c6Form, c6Book, consumedLevels, consume, jsDiv]
  · rw [simulateOrder_market_eq c6Form c6Book rfl (by simp [c6Book]) (by simp [c6Book])]
    norm_num [c6Form, c6Book, consumedLevels, consume]

/-- Form for the C1 counterexample: a Market Buy for quantity 1. -/
def c1Form : OrderForm :=
  { exchange := .OKX, symbol := "BTC-USDT", type := .Market, side := .Buy,
    price := none, quantity := 1, delay := .immediate }

/-- Book for the C1 counterexample: the consumed (ask) side is non-empty
and fully covers the order, but the bid side is empty. -/
def c1Book : OrderBook :=
  { bids := [], asks := [{ price := 100, quantity := 1 }], timestamp := 0 }

/-- Claim C1, counterexample.  The claim quantifies over books whose *consumed*
side is non-empty, but the source's guard (line 262) bails out to the
inactive result when *either* side is empty: on `c1Book` (asks non-empty,
bids empty) the claimed walk of the asks would fill 100%, yet
`simulateOrder` returns the inactive result with `fillPercentage = 0`. -/
theorem simulateOrder_market_empty_bids_counterexample :
    simulateOrder c1Form c1Book = inactiveResult c1Form ∧
    (simulateOrder c1Form c1Book).fillPercentage = 0 ∧
    (c1Form.quantity -
        (consume c1Book.asks c1Form.quantity 0 0).remainingQuantity) /
      c1Form.quantity * 100 = 100 := by
  have hempty : c1Book.bids = [] ∨ c1Book.asks = [] := Or.inl rfl
  have h : simulateOrder c1Form c1Book = inactiveResult c1Form := by
    simp only [simulateOrder, if_pos hempty]
  refine ⟨h, by rw [h]; rfl, ?_⟩
  norm_num [c1Form, c1Book, consume]

/-- Claim C1 (amended: both sides of the book must be non-empty, not just the
consumed side).  For every Market order with positive quantity against a
book with both sides non-empty, `simulateOrder` walks the consumed side
(asks for Buy, bids for Sell) from the front via `consume` — taking
`min(remaining, level.quantity)` at each level — and returns
`fillPercentage = (quantity - remaining) / quantity * 100` together with
slippage computed from the volume-weighted average fill price against the
pre-consumption top-of-book price of the consumed side, floored at 0. -/
theorem simulateOrder_market_spec (form : OrderForm) (orderBook : OrderBook)
    (htype : form.type = .Market) (hq : 0 < form.quantity)
    (hb : orderBook.bids ≠ []) (ha : orderBook.asks ≠ []) :
    (simulateOrder form orderBook).fillPercentage =
      (form.quantity -
          (consume (consumedLevels form orderBook) form.quantity 0 0).remainingQuantity) /
        form.quantity * 100 ∧
    (simulateOrder form orderBook).slippage =
      max 0
        (let c := consume (consumedLevels form orderBook) form.quantity 0 0
         let averagePrice := c.totalValue / (form.quantity - c.remainingQuantity)
         let bestPrice := topOfConsumedSide form orderBook
         match form.side with
         | .Buy => (averagePrice - bestPrice) / bestPrice * 100
         | .Sell => (bestPrice - averagePrice) / bestPrice * 100) := by
  rw [simulateOrder_market_eq form orderBook htype hb ha]
  exact ⟨rfl, rfl⟩

/-- Form for the C1 witness: the Market Buy for quantity 2 of the claim. -/
def c1WitnessForm : OrderForm :=
  { exchange := .OKX, symbol := "BTC-USDT", type := .Market, side := .Buy,
    price := none, quantity := 2, delay := .immediate }

/-- Book for the C1 witness: asks `[{100, 1}, {101, 2}]` (with a
non-empty bid side so the guard passes). -/
def c1WitnessBook : OrderBook :=
  { bids := [{ price := 99, quantity := 1 }],
    asks := [{ price := 100, quantity := 1 }, { price := 101, quantity := 2 }],
    timestamp := 0 }

/-- Witness for C1: the claim's concrete instance — a Market Buy for
quantity 2 against asks `[{100, 1}, {101, 2}]` fills 100% at average price
100.5, for slippage `(100.5 - 100) / 100 * 100 = 0.5`. -/
theorem simulateOrder_market_spec_witness :
    (0 : ℚ) < c1WitnessForm.quantity ∧
    (simulateOrder c1WitnessForm c1WitnessBook).fillPercentage = 100 ∧
    (simulateOrder c1WitnessForm c1WitnessBook).slippage = 1 / 2 := by
  have h := simulateOrder_market_spec c1WitnessForm c1WitnessBook rfl
    (by norm_num [c1WitnessForm]) (by simp [c1WitnessBook]) (by simp [c1WitnessBook])
  have hc : consume (consumedLevels c1WitnessForm c1WitnessBook)
      c1WitnessForm.quantity 0 0 = ⟨0, 201, 2⟩ := by
    norm_num [c1WitnessForm, c1WitnessBook, consumedLevels, consume]
  refine ⟨by norm_num [c1WitnessForm], ?_, ?_⟩
  · rw [h.1, hc]
    norm_num [c1WitnessForm]
  · rw [h.2]
    simp only [hc]
    norm_num [c1WitnessForm, c1WitnessBook, topOfConsumedSide, max_def]

/-- Form for the C10 counterexample: Limit Sell at 100 for quantity 1. -/
def c10Form : OrderForm :=
  { exchange := .OKX, symbol := "BTC-USDT", type := .Limit, side := .Sell,
    price := some 100, quantity := 1, delay := .immediate }

/-- Book for the C10 counterexample: both sides non-empty, but no bid at
or above 100, so the Sell fills nothing. -/
def c10Book : OrderBook :=
  { bids := [{ price := 50, quantity := 1 }],
    asks := [{ price := 200, quantity := 1 }], timestamp := 0 }

/-- Claim C10, counterexample.  A Limit Sell that fills nothing has
`totalValue = 0` and, through the `|| 1` guard, `averageFilledPrice = 0`;
the Sell-direction formula then yields
`(orderPrice - 0) / orderPrice * 100 = 100`, so the returned slippage is
100, not 0 as claimed. -/
theorem simulateOrder_limit_sell_slippage_counterexample :
    (simulateOrder c10Form c10Book).slippage = 100 ∧
    (simulateOrder c10Form c10Book).slippage ≠ 0 := by
  have h100 : (simulateOrder c10Form c10Book).slippage = 100 := by
    rw [simulateOrder_limit_eq c10Form c10Book rfl (by simp [c10Book]) (by simp [c10Book])]
    norm_num [c10Form, c10Book, consumedLevels, limitOrderPrice, limitFillable,
      consume, List.filter, max_def]
  exact ⟨h100, by rw [h100]; norm_num⟩

/-- Claim C10 (amended).  For a pre-validated Limit order (positive limit
price, positive quantity) against a book with both sides non-empty whose
consumed side has non-negative level quantities (the data-model invariant),
the returned slippage is exactly 0 — for a Buy unconditionally, and for a
Sell whenever the order fills a positive amount.  (A Sell that fills nothing
is the counterexample above: its slippage is 100.)  The reason the floor at
0 always engages: only levels priced at or better than the limit are
fillable, so the volume-weighted average fill price is never worse than the
limit price the slippage formula measures against. -/
theorem simulateOrder_limit_slippage_spec (form : OrderForm) (orderBook : OrderBook)
    (htype : form.type = .Limit) (hp : 0 < limitOrderPrice form)
    (hq : 0 < form.quantity)
    (hb : orderBook.bids ≠ []) (ha : orderBook.asks ≠ [])
    (hqty : ∀ l ∈ consumedLevels form orderBook, 0 ≤ l.quantity) :
    (form.side = .Buy → (simulateOrder form orderBook).slippage = 0) ∧
    (form.side = .Sell → 0 < limitFilled form orderBook →
      (simulateOrder form orderBook).slippage = 0) := by
  rw [simulateOrder_limit_eq form orderBook htype hb ha]
  simp only
  set P := limitOrderPrice form with hP
  set c := consume (limitFillable form orderBook) form.quantity 0 0 with hc
  have hqty' : ∀ l ∈ limitFillable form orderBook, 0 ≤ l.quantity := by
    intro l hl
    cases hside : form.side <;>
      · simp only [limitFillable, hside] at hl
        exact hqty l (List.mem_of_mem_filter hl)
  have hrem := consume_remaining_bounds (limitFillable form orderBook)
    form.quantity 0 0 hq.le hqty'
  rw [← hc] at hrem
  constructor
  · intro hside
    have hple : ∀ l ∈ limitFillable form orderBook, l.price ≤ P := by
      intro l hl
      simp only [limitFillable, hside] at hl
      have := List.of_mem_filter hl
      simpa using this
    have htv := consume_totalValue_le (limitFillable form orderBook)
      form.quantity 0 0 P hple hqty'
    rw [← hc] at htv
    simp only [zero_add] at htv
    simp only [hside]
    apply max_eq_left
    by_cases h0 : form.quantity - c.remainingQuantity = 0
    · rw [if_pos h0]
      have htv0 : c.totalValue ≤ 0 := by
        rw [h0] at htv
        simpa using htv
      have hnum : c.totalValue / 1 - P ≤ 0 := by
        simp only [div_one]
        linarith
      have : (c.totalValue / 1 - P) / P ≤ 0 :=
        div_nonpos_iff.mpr (Or.inr ⟨hnum, hp.le⟩)
      nlinarith
    · rw [if_neg h0]
      have hfpos : 0 < form.quantity - c.remainingQuantity := by
        rcases lt_or_eq_of_le (by linarith [hrem.2] : (0 : ℚ) ≤ form.quantity - c.remainingQuantity) with h | h
        · exact h
        · exact absurd h.symm h0
      have havg : c.totalValue / (form.quantity - c.remainingQuantity) ≤ P := by
        rw [div_le_iff₀ hfpos]
        linarith
      have : (c.totalValue / (form.quantity - c.remainingQuantity) - P) / P ≤ 0 :=
        div_nonpos_iff.mpr (Or.inr ⟨by linarith, hp.le⟩)
      nlinarith
  · intro hside hfill
    have hpge : ∀ l ∈ limitFillable form orderBook, P ≤ l.price := by
      intro l hl
      simp only [limitFillable, hside] at hl
      have := List.of_mem_filter hl
      simpa using this
    have htv := consume_totalValue_ge (limitFillable form orderBook)
      form.quantity 0 0 P hpge hqty'
    rw [← hc] at htv
    simp only [zero_add] at htv
    have hfpos : 0 < form.quantity - c.remainingQuantity := by
      simpa [limitFilled, ← hc] using hfill
    simp only [hside]
    apply max_eq_left
    rw [if_neg (ne_of_gt hfpos)]
    have havg : P ≤ c.totalValue / (form.quantity - c.remainingQuantity) := by
      rw [le_div_iff₀ hfpos]
      linarith
    have : (P - c.totalValue / (form.quantity - c.remainingQuantity)) / P ≤ 0 :=
      div_nonpos_iff.mpr (Or.inr ⟨by linarith, hp.le⟩)
    nlinarith

/-- Form for the C10 witness: Limit Buy at 105 for quantity 1. -/
def c10WitnessForm : OrderForm :=
  { exchange := .OKX, symbol := "BTC-USDT", type := .Limit, side := .Buy,
    price := some 105, quantity := 1, delay := .immediate }

/-- Book for the C10 witness. -/
def c10WitnessBook : OrderBook :=
  { bids := [{ price := 99, quantity := 1 }],
    asks := [{ price := 100, quantity := 2 }], timestamp := 0 }

/-- Witness for C10: a Limit Buy at 105 against asks at 100 fills at
100 ≤ 105, so the directional slippage is negative and the floor returns
exactly 0. -/
theorem simulateOrder_limit_slippage_spec_witness :
    (0 : ℚ) < limitOrderPrice c10WitnessForm ∧
    (simulateOrder c10WitnessForm c10WitnessBook).slippage = 0 := by
  have h := simulateOrder_limit_slippage_spec c10WitnessForm c10WitnessBook rfl
    (by norm_num [limitOrderPrice, c10WitnessForm])
    (by norm_num [c10WitnessForm])
    (by simp [c10WitnessBook]) (by simp [c10WitnessBook])
    (by intro l hl
        simp only [consumedLevels, c10WitnessForm, c10WitnessBook] at hl
        simp only [List.mem_singleton] at hl
        subst hl
        norm_num)
  exact ⟨by norm_num [limitOrderPrice, c10WitnessForm], h.1 rfl⟩

/-- Input book for the C8 counterexample: one bid, empty asks, no
`total`/`percentage` fields set. -/
def c8Book : OrderBook :=
  { bids := [{ price := 1, quantity := 2 }], asks := [], timestamp := 0 }

/-- What the input's level objects look like after `processOrderBookData`
runs on `c8Book`: the single bid survives sort + truncation, so the
`forEach` mutations write `total = 2` and `percentage = 100` into it. -/
def c8BookAfter : OrderBook :=
  { bids := [{ price := 1, quantity := 2, total := some 2, percentage := some 100 }],
    asks := [], timestamp := 0 }

/-- Claim C8, counterexample.  `processOrderBookData` is *not* a pure transform
on its input: `[...rawOrderBook.bids]` copies the array but shares the level
objects, and the `forEach` loops then assign `total`/`percentage` into those
shared objects.  On `c8Book` the input's single bid level is mutated from
`{1, 2}` to `{1, 2, total: 2, percentage: 100}`. -/
theorem processOrderBookData_mutates_input :
    processInputAfter c8Book = c8BookAfter ∧ c8BookAfter ≠ c8Book := by
  constructor
  · norm_num [processInputAfter, c8Book, c8BookAfter, mutatedSide, setTotalsIdx,
      applyMutations, List.enum, List.enumFrom, jsPercentage, List.lookup]
  · simp [c8Book, c8BookAfter]

/-- Claim C8 (amended).  The mutation touches only the `total` and
`percentage` fields of the level objects shared with the input: the input's
array structure — its length, order, and every level's `price` and
`quantity` — and its timestamp are unchanged by `processOrderBookData`. -/
theorem processInputAfter_preserves_structure (b : OrderBook) :
    (processInputAfter b).bids.map (fun l => (l.price, l.quantity)) =
      b.bids.map (fun l => (l.price, l.quantity)) ∧
    (processInputAfter b).asks.map (fun l => (l.price, l.quantity)) =
      b.asks.map (fun l => (l.price, l.quantity)) ∧
    (processInputAfter b).timestamp = b.timestamp := by
  have key : ∀ (m : ℚ) (upd : List (ℕ × OrderLevel)) (side : List OrderLevel),
      (applyMutations m upd side).map (fun l => (l.price, l.quantity)) =
        side.map (fun l => (l.price, l.quantity)) := by
    intro m upd side
    simp only [applyMutations, List.map_map]
    rw [List.map_congr_left (g := fun p : ℕ × OrderLevel => (p.2.price, p.2.quantity))
      (by intro p _
          cases h : upd.lookup p.1 <;> simp [h])]
    rw [show (fun p : ℕ × OrderLevel => (p.2.price, p.2.quantity)) =
        ((fun l : OrderLevel => (l.price, l.quantity)) ∘ Prod.snd) from rfl]
    rw [← List.map_map, List.enum_map_snd]
  exact ⟨key _ _ _, key _ _ _, rfl⟩

/-- Witness for C8 (amended): on the concrete `c8Book` the prices and
quantities of the input are preserved even though the level was mutated. -/
theorem processInputAfter_preserves_structure_witness :
    (processInputAfter c8Book).bids.map (fun l => (l.price, l.quantity)) =
      c8Book.bids.map (fun l => (l.price, l.quantity)) :=
  (processInputAfter_preserves_structure c8Book).1

/-- The totals pass preserves the number of levels. -/
theorem setTotals_length (ls : List OrderLevel) (s : ℚ) :
    (setTotals s ls).1.length = ls.length := by
  induction ls generalizing s with
  | nil => simp [setTotals]
  | cons l rest ih => simp [setTotals, ih]

/-- Specification of the totals pass under non-negative quantities: the
final running total dominates the start, every written `total` is `some t`
with `t ∈ [start, final]`, and the written totals are non-decreasing along
the list. -/
theorem setTotals_spec (ls : List OrderLevel) (s : ℚ)
    (hq : ∀ l ∈ ls, 0 ≤ l.quantity) :
    s ≤ (setTotals s ls).2 ∧
    (∀ l ∈ (setTotals s ls).1, ∃ t, l.total = some t ∧ s ≤ t ∧ t ≤ (setTotals s ls).2) ∧
    List.Chain' (· ≤ ·) ((setTotals s ls).1.map (fun l => l.total.getD 0)) := by
  induction ls generalizing s with
  | nil => simp [setTotals]
  | cons l rest ih =>
    have hql : 0 ≤ l.quantity := hq l (by simp)
    have hrec := ih (s + l.quantity) (fun x hx => hq x (by simp [hx]))
    simp only [setTotals]
    refine ⟨by linarith [hrec.1], ?_, ?_⟩
    · intro x hx
      rcases List.mem_cons.mp hx with h | h
      · subst h
        exact ⟨s + l.quantity, rfl, by linarith, hrec.1⟩
      · obtain ⟨t, ht, hst, htf⟩ := hrec.2.1 x h
        exact ⟨t, ht, by linarith, htf⟩
    · rw [List.map_cons]
      refine List.chain'_cons'.mpr ⟨?_, hrec.2.2⟩
      intro y hy
      rw [List.head?_map] at hy
      cases hh : (setTotals (s + l.quantity) rest).1.head? with
      | none => simp [hh] at hy
      | some x =>
        rw [hh] at hy
        simp only [Option.map_some', Option.mem_def, Option.some.injEq] at hy
        obtain ⟨t, ht, hst, _⟩ := hrec.2.1 x (List.mem_of_mem_head? hh)
        subst hy
        simp only [Option.getD_some, ht]
        linarith

/-- Bounds for the percentage formula: with `0 ≤ t ≤ m` the JavaScript
expression `t ? t / m * 100 : 0` lies in `[0, 100]`. -/
theorem jsPercentage_bounds (m t : ℚ) (ht0 : 0 ≤ t) (htm : t ≤ m) :
    0 ≤ jsPercentage m t ∧ jsPercentage m t ≤ 100 := by
  unfold jsPercentage
  by_cases h : t = 0
  · simp [h]
  · rw [if_neg h]
    have htpos : 0 < t := lt_of_le_of_ne ht0 (Ne.symm h)
    have hmpos : 0 < m := lt_of_lt_of_le htpos htm
    constructor
    · positivity
    · have h1 : t / m ≤ 1 := (div_le_one hmpos).mpr htm
      nlinarith [div_nonneg ht0 hmpos.le]

/-- Claim C2 (confirmed).  For every input book with non-negative quantities,
the output of `processOrderBookData` has at most 15 levels per side, the
written cumulative totals are non-decreasing along each side, and every
written `percentage` lies in `[0, 100]`; a book with both sides empty passes
through unchanged. -/
theorem processOrderBookData_guarantees (b : OrderBook)
    (hqb : ∀ l ∈ b.bids, 0 ≤ l.quantity) (hqa : ∀ l ∈ b.asks, 0 ≤ l.quantity) :
    ((processOrderBookData b).bids.length ≤ 15 ∧
      (processOrderBookData b).asks.length ≤ 15) ∧
    (List.Chain' (· ≤ ·) ((processOrderBookData b).bids.map (fun l => l.total.getD 0)) ∧
      List.Chain' (· ≤ ·) ((processOrderBookData b).asks.map (fun l => l.total.getD 0))) ∧
    ((∀ l ∈ (processOrderBookData b).bids,
        ∃ q, l.percentage = some q ∧ 0 ≤ q ∧ q ≤ 100) ∧
      (∀ l ∈ (processOrderBookData b).asks,
        ∃ q, l.percentage = some q ∧ 0 ≤ q ∧ q ≤ 100)) ∧
    (b.bids = [] → b.asks = [] → processOrderBookData b = b) := by
  have hqb' : ∀ l ∈ (b.bids.mergeSort bidLe).take 15, 0 ≤ l.quantity := fun l hl =>
    hqb l (List.mem_mergeSort.mp (List.mem_of_mem_take hl))
  have hqa' : ∀ l ∈ (b.asks.mergeSort askLe).take 15, 0 ≤ l.quantity := fun l hl =>
    hqa l (List.mem_mergeSort.mp (List.mem_of_mem_take hl))
  have hB := setTotals_spec ((b.bids.mergeSort bidLe).take 15) 0 hqb'
  have hA := setTotals_spec ((b.asks.mergeSort askLe).take 15) 0 hqa'
  set finB := (setTotals 0 ((b.bids.mergeSort bidLe).take 15)).2 with hfinB
  set finA := (setTotals 0 ((b.asks.mergeSort askLe).take 15)).2 with hfinA
  have hBm : finB ≤ max finB finA := le_max_left _ _
  have hAm : finA ≤ max finB finA := le_max_right _ _
  have htotal_pres : ∀ (m : ℚ) (x : OrderLevel),
      (setPercentage m x).total = x.total := fun m x => rfl
  refine ⟨⟨?_, ?_⟩, ⟨?_, ?_⟩, ⟨?_, ?_⟩, ?_⟩
  · simp only [processOrderBookData, List.length_map, setTotals_length]
    exact le_trans (List.length_take_le _ _) (le_refl 15)
  · simp only [processOrderBookData, List.length_map, setTotals_length]
    exact le_trans (List.length_take_le _ _) (le_refl 15)
  · simp only [processOrderBookData, List.map_map]
    have : ((fun l : OrderLevel => l.total.getD 0) ∘ setPercentage (max finB finA)) =
        fun l : OrderLevel => l.total.getD 0 := funext fun l => rfl
    rw [this]
    exact hB.2.2
  · simp only [processOrderBookData, List.map_map]
    have : ((fun l : OrderLevel => l.total.getD 0) ∘ setPercentage (max finB finA)) =
        fun l : OrderLevel => l.total.getD 0 := funext fun l => rfl
    rw [this]
    exact hA.2.2
  · simp only [processOrderBookData]
    intro l hl
    obtain ⟨x, hx, hlx⟩ := List.mem_map.mp hl
    obtain ⟨t, ht, ht0, htf⟩ := hB.2.1 x hx
    have hbounds := jsPercentage_bounds (max finB finA) t ht0 (le_trans htf hBm)
    refine ⟨jsPercentage (max finB finA) t, ?_, hbounds.1, hbounds.2⟩
    rw [← hlx]
    simp [setPercentage, ht]
  · simp only [processOrderBookData]
    intro l hl
    obtain ⟨x, hx, hlx⟩ := List.mem_map.mp hl
    obtain ⟨t, ht, ht0, htf⟩ := hA.2.1 x hx
    have hbounds := jsPercentage_bounds (max finB finA) t ht0 (le_trans htf hAm)
    refine ⟨jsPercentage (max finB finA) t, ?_, hbounds.1, hbounds.2⟩
    rw [← hlx]
    simp [setPercentage, ht]
  · intro hbe hae
    cases b with
    | mk bids asks ts =>
      simp only at hbe hae
      subst hbe
      subst hae
      simp [processOrderBookData, setTotals]

/-- Input book for the C2 witness. -/
def c2Book : OrderBook :=
  { bids := [{ price := 1, quantity := 2 }],
    asks := [{ price := 2, quantity := 3 }, { price := 3, quantity := 1 }],
    timestamp := 0 }

/-- Witness for C2: the guarantees instantiated on a concrete book. -/
theorem processOrderBookData_guarantees_witness :
    (processOrderBookData c2Book).bids.length ≤ 15 ∧
    (∀ l ∈ (processOrderBookData c2Book).asks,
      ∃ q, l.percentage = some q ∧ 0 ≤ q ∧ q ≤ 100) := by
  have h := processOrderBookData_guarantees c2Book
    (by intro l hl
        simp only [c2Book, List.mem_singleton] at hl
        subst hl
        norm_num)
    (by intro l hl
        simp only [c2Book, List.mem_cons, List.mem_singleton, List.not_mem_nil,
          or_false] at hl
        rcases hl with hl | hl <;>
          · subst hl
            norm_num)
  exact ⟨h.1.1, h.2.2.1.2⟩

/-! ## Idempotence of the aggregator -/

/-- The pass `setPercentage` only writes the `percentage` field. -/
theorem setPercentage_price (m : ℚ) (l : OrderLevel) :
    (setPercentage m l).price = l.price := rfl

/-- The pass `setPercentage` only writes the `percentage` field. -/
theorem setPercentage_quantity (m : ℚ) (l : OrderLevel) :
    (setPercentage m l).quantity = l.quantity := rfl

/-- The pass `setPercentage` only writes the `percentage` field. -/
theorem setPercentage_total (m : ℚ) (l : OrderLevel) :
    (setPercentage m l).total = l.total := rfl

/-- Writing the same percentage twice is the same as writing it once. -/
theorem setPercentage_idem (m : ℚ) (l : OrderLevel) :
    setPercentage m (setPercentage m l) = setPercentage m l := rfl

/-- The totals pass preserves each level's price. -/
theorem setTotals_fst_price (ls : List OrderLevel) (s : ℚ) :
    (setTotals s ls).1.map (fun l => l.price) = ls.map (fun l => l.price) := by
  induction ls generalizing s with
  | nil => simp [setTotals]
  | cons l rest ih => simp [setTotals, ih]

/-- Re-running the totals pass over an already-decorated side rewrites the
same totals and changes nothing (the recomputation only reads the
`quantity` fields, which the passes never modify). -/
theorem setTotals_idem (ls : List OrderLevel) (s m : ℚ) :
    setTotals s ((setTotals s ls).1.map (setPercentage m)) =
      ((setTotals s ls).1.map (setPercentage m), (setTotals s ls).2) := by
  induction ls generalizing s with
  | nil => simp [setTotals]
  | cons l rest ih =>
    simp only [setTotals, List.map_cons]
    rw [show (setPercentage m { l with total := some (s + l.quantity) }).quantity
        = l.quantity from rfl]
    rw [ih (s + l.quantity)]
    simp [setPercentage]

/-- The comparator `bidLe` is transitive. -/
theorem bidLe_trans : ∀ a b c : OrderLevel, bidLe a b → bidLe b c → bidLe a c := by
  intro a b c hab hbc
  simp only [bidLe, decide_eq_true_eq] at *
  exact le_trans hbc hab

/-- The comparator `bidLe` is total. -/
theorem bidLe_total : ∀ a b : OrderLevel, bidLe a b || bidLe b a := by
  intro a b
  simp only [bidLe]
  rcases le_total b.price a.price with h | h <;> simp [h]

/-- The comparator `askLe` is transitive. -/
theorem askLe_trans : ∀ a b c : OrderLevel, askLe a b → askLe b c → askLe a c := by
  intro a b c hab hbc
  simp only [askLe, decide_eq_true_eq] at *
  exact le_trans hab hbc

/-- The comparator `askLe` is total. -/
theorem askLe_total : ∀ a b : OrderLevel, askLe a b || askLe b a := by
  intro a b
  simp only [askLe]
  rcases le_total a.price b.price with h | h <;> simp [h]

/-- Sortedness under `bidLe` only depends on the price list. -/
theorem pairwise_bidLe_iff (l : List OrderLevel) :
    l.Pairwise (fun a b => bidLe a b) ↔
      (l.map (fun x => x.price)).Pairwise (fun x y : ℚ => y ≤ x) := by
  rw [List.pairwise_map]
  constructor <;> exact List.Pairwise.imp (by intro a b h; simpa [bidLe] using h)

/-- Sortedness under `askLe` only depends on the price list. -/
theorem pairwise_askLe_iff (l : List OrderLevel) :
    l.Pairwise (fun a b => askLe a b) ↔
      (l.map (fun x => x.price)).Pairwise (fun x y : ℚ => x ≤ y) := by
  rw [List.pairwise_map]
  constructor <;> exact List.Pairwise.imp (by intro a b h; simpa [askLe] using h)

/-- A fully-decorated, already-sorted, already-truncated side is left fixed
by a second sort-and-truncate: the decoration passes never touch prices, so
sortedness is preserved; a stable sort of a sorted list is the identity; and
`take 15` of a list of at most 15 elements is the identity. -/
theorem processed_side_fix (le : OrderLevel → OrderLevel → Bool)
    (X : List OrderLevel) (m : ℚ)
    (hsorted : X.Pairwise (fun a b => le a b))
    (hlen : X.length ≤ 15)
    (hprice : ∀ l₁ l₂ : List OrderLevel,
      l₁.map (fun x => x.price) = l₂.map (fun x => x.price) →
      l₂.Pairwise (fun a b => le a b) → l₁.Pairwise (fun a b => le a b)) :
    (((setTotals 0 X).1.map (setPercentage m)).mergeSort le).take 15 =
      (setTotals 0 X).1.map (setPercentage m) := by
  have hmap : ((setTotals 0 X).1.map (setPercentage m)).map (fun x => x.price) =
      X.map (fun x => x.price) := by
    rw [List.map_map]
    rw [show ((fun x : OrderLevel => x.price) ∘ setPercentage m) =
        (fun x : OrderLevel => x.price) from funext fun x => rfl]
    exact setTotals_fst_price X 0
  have hsortedB := hprice _ _ hmap hsorted
  rw [List.mergeSort_of_sorted hsortedB]
  apply List.take_of_length_le
  rw [List.length_map, setTotals_length]
  exact hlen

/-- Claim C9 (confirmed).  `processOrderBookData` is idempotent: its output is
already sorted per side, has at most 15 levels per side, and re-running the
totals and percentage passes rewrites the very same values, so applying the
function twice equals applying it once.  In particular it is idempotent on
every already-aggregated book of ≤ 15 levels per side, which is exactly its
image. -/
theorem processOrderBookData_idem (b : OrderBook) :
    processOrderBookData (processOrderBookData b) = processOrderBookData b := by
  have hbidprice : ∀ l₁ l₂ : List OrderLevel,
      l₁.map (fun x => x.price) = l₂.map (fun x => x.price) →
      l₂.Pairwise (fun a b => bidLe a b) → l₁.Pairwise (fun a b => bidLe a b) := by
    intro l₁ l₂ hm h
    rw [pairwise_bidLe_iff, hm]
    exact (pairwise_bidLe_iff l₂).mp h
  have haskprice : ∀ l₁ l₂ : List OrderLevel,
      l₁.map (fun x => x.price) = l₂.map (fun x => x.price) →
      l₂.Pairwise (fun a b => askLe a b) → l₁.Pairwise (fun a b => askLe a b) := by
    intro l₁ l₂ hm h
    rw [pairwise_askLe_iff, hm]
    exact (pairwise_askLe_iff l₂).mp h
  have hXs : ((b.bids.mergeSort bidLe).take 15).Pairwise (fun a b => bidLe a b) :=
    List.Pairwise.sublist (List.take_sublist _ _)
      (List.sorted_mergeSort bidLe_trans bidLe_total b.bids)
  have hYs : ((b.asks.mergeSort askLe).take 15).Pairwise (fun a b => askLe a b) :=
    List.Pairwise.sublist (List.take_sublist _ _)
      (List.sorted_mergeSort askLe_trans askLe_total b.asks)
  have hXl : ((b.bids.mergeSort bidLe).take 15).length ≤ 15 := List.length_take_le _ _
  have hYl : ((b.asks.mergeSort askLe).take 15).length ≤ 15 := List.length_take_le _ _
  have hPb : processOrderBookData b =
      { bids := (setTotals 0 ((b.bids.mergeSort bidLe).take 15)).1.map
          (setPercentage (max (setTotals 0 ((b.bids.mergeSort bidLe).take 15)).2
            (setTotals 0 ((b.asks.mergeSort askLe).take 15)).2)),
        asks := (setTotals 0 ((b.asks.mergeSort askLe).take 15)).1.map
          (setPercentage (max (setTotals 0 ((b.bids.mergeSort bidLe).take 15)).2
            (setTotals 0 ((b.asks.mergeSort askLe).take 15)).2)),
        timestamp := b.timestamp } := rfl
  rw [hPb]
  simp only [processOrderBookData]
  rw [processed_side_fix bidLe _ _ hXs hXl hbidprice,
    processed_side_fix askLe _ _ hYs hYl haskprice,
    setTotals_idem, setTotals_idem]
  simp only [List.map_map]
  rw [show ∀ m : ℚ, setPercentage m ∘ setPercentage m = setPercentage m from
    fun m => funext (setPercentage_idem m)]

/-- Witness for C9: idempotence at a concrete book. -/
theorem processOrderBookData_idem_witness :
    processOrderBookData (processOrderBookData c2Book) = processOrderBookData c2Book :=
  processOrderBookData_idem c2Book

/-! ## Parser lemmas -/

/-- A successful guarded property access reads the plain property. -/
theorem getEx_ok (v : JsVal) (k : String) (d : JsVal) :
    v.getEx k = .ok d → d = v.get k := by
  cases v <;> simp [JsVal.getEx] <;> intro h <;> exact h.symm

/-- On a message that is neither `null` nor `undefined`, the guarded access
succeeds with the plain property. -/
theorem getEx_eq_ok (v : JsVal) (k : String)
    (hnn : v ≠ JsVal.jnull) (hnu : v ≠ JsVal.undefined) :
    v.getEx k = .ok (v.get k) := by
  cases v <;> first
    | rfl
    | exact absurd rfl hnn
    | exact absurd rfl hnu

/-- A `try` block that produced a non-null book did not throw. -/
theorem jsTry_ok_some (x : Except String (Option ParsedBook)) (b : ParsedBook) :
    jsTry x = .ok (some b) → x = .ok (some b) := by
  cases x <;> simp [jsTry]

/-- A `JSON.parse` stub that always throws (no claim below feeds string
`data`, so the stub is never reached). -/
def jsonParseNone : String → Option JsVal := fun _ => none

/-- A finite JavaScript number (spec §6: Exchange C level entries are
`[price: number, quantity: number]` pairs, already numeric). -/
def JsVal.isNum : JsVal → Bool
  | .num _ => true
  | _ => false

/-- Modelled from the spec (§6, Exchange C wire shape — used only to state
that a counterexample message is malformed): a well-formed Deribit book
payload carries `bids`/`asks` as arrays of numeric `[price, quantity]`
pairs. -/
def deribitPayloadWellFormed (message : JsVal) : Bool :=
  match (deribitData message).get "bids", (deribitData message).get "asks" with
  | .arr bs, .arr as1 =>
    (bs ++ as1).all (fun e =>
      match e with
      | .arr [p, q] => p.isNum && q.isNum
      | _ => false)
  | _, _ => false

/-- Malformed Deribit message for the C4 counterexample: the envelope is
right, but the single bid entry is a pair of strings where the wire shape
requires numbers. -/
def c4DeribitMsg : JsVal :=
  .obj [("params", .obj [("data", .obj
    [("bids", .arr [.arr [.str "x", .str "y"]]), ("asks", .arr [])])])]

/-- Claim C4, counterexample.  Two failures of the claim: (1) on the raw
message JSON `null` — not an order-book payload — every parser dereferences
the message before its `try` block and throws a TypeError instead of
returning null (shown for OKX); (2) a malformed Deribit payload (string
entries where the wire shape requires numeric pairs) is passed through
verbatim as a non-null book instead of degrading to null. -/
theorem normalize_malformed_counterexample :
    parseMessageOKX jsonParseNone 0 JsVal.jnull = .error "TypeError" ∧
    deribitPayloadWellFormed c4DeribitMsg = false ∧
    parseMessageDeribit 7 c4DeribitMsg =
      .ok (some ⟨[⟨.str "x", .str "y"⟩], [], .num 7⟩) ∧
    parseMessageDeribit 7 c4DeribitMsg ≠ .ok none := by
  refine ⟨rfl, rfl, rfl, ?_⟩
  have h : parseMessageDeribit 7 c4DeribitMsg =
      .ok (some ⟨[⟨.str "x", .str "y"⟩], [], .num 7⟩) := rfl
  rw [h]
  simp

/-- Claim C4 (amended).  For every supported exchange, `normalize` returns
null — without throwing — on every non-null message that fails the
exchange's order-book envelope guard (`isOrderBookCandidate`), which covers
subscription acks, heartbeats, unrelated channels and envelope-level
malformation.  (It does *not* return null on every malformed message: a
JSON-`null` message makes it throw, and an envelope-correct message with
malformed level entries can be returned as a non-null book — see the
counterexample.) -/
theorem normalize_non_candidate_returns_null (exchange : Exchange)
    (jsonParse : String → Option JsVal) (now : ℚ) (message : JsVal)
    (hnn : message ≠ JsVal.jnull) (hnu : message ≠ JsVal.undefined)
    (hcand : isOrderBookCandidate exchange message = false) :
    normalize exchange jsonParse now message = .ok none := by
  cases exchange with
  | OKX =>
    simp only [isOrderBookCandidate] at hcand
    simp only [normalize, parseMessageOKX, getEx_eq_ok message "data" hnn hnu]
    simp [hcand]
  | Bybit =>
    simp only [isOrderBookCandidate, Bool.and_eq_false_iff] at hcand
    simp only [normalize, parseMessageBybit, getEx_eq_ok message "data" hnn hnu]
    rcases hcand with h | h
    · simp [h]
    · by_cases hd : (message.get "data").truthy
      · simp [hd, h]
      · simp [hd]
  | Deribit =>
    simp only [isOrderBookCandidate] at hcand
    simp only [normalize, parseMessageDeribit, getEx_eq_ok message "params" hnn hnu]
    simp [hcand]

/-- OKX subscription ack. -/
def okxAck : JsVal :=
  .obj [("event", .str "subscribe"),
        ("arg", .obj [("channel", .str "books"), ("instId", .str "BTC-USDT")])]

/-- Bybit subscription ack. -/
def bybitAck : JsVal :=
  .obj [("op", .str "subscribe"), ("success", .bool true)]

/-- Deribit JSON-RPC subscription ack. -/
def deribitAck : JsVal :=
  .obj [("jsonrpc", .str "2.0"), ("id", .num 1),
        ("result", .arr [.str "book.BTC-PERPETUAL.none.20.100ms"])]

/-- Witness for C4 (amended): each exchange's subscription ack
normalizes to null. -/
theorem normalize_non_candidate_returns_null_witness :
    normalize .OKX jsonParseNone 0 okxAck = .ok none ∧
    normalize .Bybit jsonParseNone 0 bybitAck = .ok none ∧
    normalize .Deribit jsonParseNone 0 deribitAck = .ok none :=
  ⟨normalize_non_candidate_returns_null .OKX jsonParseNone 0 okxAck
      (fun h => nomatch h) (fun h => nomatch h) rfl,
    normalize_non_candidate_returns_null .Bybit jsonParseNone 0 bybitAck
      (fun h => nomatch h) (fun h => nomatch h) rfl,
    normalize_non_candidate_returns_null .Deribit jsonParseNone 0 deribitAck
      (fun h => nomatch h) (fun h => nomatch h) rfl⟩

/-- OKX message for the C7 counterexample: a well-formed book payload
whose first data element carries its own `ts` field. -/
def c7OkxMsg : JsVal :=
  .obj [("data", .arr [.obj
    [("asks", .arr []), ("bids", .arr []), ("ts", .str "1234")]])]

/-- Claim C7, counterexample.  The OKX parser stamps
`timestamp: new Date().getTime()` unconditionally (line 33): with wall clock
999 and a message whose payload carries `ts: "1234"`, the returned book's
timestamp is the wall-clock 999, not the message's own field. -/
theorem parseMessageOKX_ignores_message_timestamp :
    parseMessageOKX jsonParseNone 999 c7OkxMsg = .ok (some ⟨[], [], .num 999⟩) ∧
    (c7OkxMsg.get "data").idxEx 0 =
      .ok (.obj [("asks", .arr []), ("bids", .arr []), ("ts", .str "1234")]) ∧
    (JsVal.num 999).isNum = true := by
  exact ⟨rfl, rfl, rfl⟩

/-- Every book the OKX body produces is stamped with the wall clock. -/
theorem parseBodyOKX_timestamp (now : ℚ) (data : JsVal) (b : ParsedBook) :
    parseBodyOKX now data = .ok (some b) → b.timestamp = .num now := by
  intro h
  unfold parseBodyOKX at h
  split at h
  · simp only [] at h
    split at h
    · exact absurd h (by simp)
    · split at h
      · exact absurd h (by simp)
      · split at h
        · exact absurd h (by simp)
        · split at h
          · exact absurd h (by simp)
          · split at h
            · exact absurd h (by simp)
            · split at h
              · split at h
                · obtain ⟨rfl⟩ : (⟨_, _, .num now⟩ : ParsedBook) = b := by
                    simpa using h
                  rfl
                · exact absurd h (by simp)
                · exact absurd h (by simp)
              · exact absurd h (by simp)
  · exact absurd h (by simp)

/-- The Bybit body stamps from the payload's `ts` when truthy, else the wall
clock. -/
theorem parseBodyBybit_timestamp :
    ∀ (now : ℚ) (data : JsVal) (b : ParsedBook),
      parseBodyBybit now data = .ok (some b) →
        b.timestamp = if (data.get "ts").truthy then data.get "ts" else .num now := by
  intro now data b h
  unfold parseBodyBybit at h
  split at h
  · exact absurd h (by simp)
  · split at h
    · exact absurd h (by simp)
    · split at h
      · exact absurd h (by simp)
      · split at h
        · exact absurd h (by simp)
        · split at h
          · exact absurd h (by simp)
          · split at h
            · split at h
              · obtain ⟨rfl⟩ : (⟨_, _, _⟩ : ParsedBook) = b := by simpa using h
                rfl
              · exact absurd h (by simp)
              · exact absurd h (by simp)
            · exact absurd h (by simp)

/-- The Deribit body stamps from the payload's `timestamp` when truthy, else
the wall clock. -/
theorem parseBodyDeribit_timestamp :
    ∀ (now : ℚ) (d : JsVal) (b : ParsedBook),
      parseBodyDeribit now d = .ok (some b) →
        b.timestamp =
          if (d.get "timestamp").truthy then d.get "timestamp" else .num now := by
  intro now d b h
  unfold parseBodyDeribit at h
  split at h
  · split at h
    · obtain ⟨rfl⟩ : (⟨_, _, _⟩ : ParsedBook) = b := by simpa using h
      rfl
    · exact absurd h (by simp)
    · exact absurd h (by simp)
  · exact absurd h (by simp)

/-- Claim C7 (amended).  OKX always stamps the wall-clock time of receipt,
ignoring any timestamp in the message.  Bybit and Deribit stamp the book
from the payload's own `ts`/`timestamp` field when it is present and truthy
(a JavaScript `||` fallback: a 0 timestamp also falls back), else from the
wall clock. -/
theorem normalize_timestamp_spec :
    (∀ (jsonParse : String → Option JsVal) (now : ℚ) (message : JsVal) (b : ParsedBook),
      parseMessageOKX jsonParse now message = .ok (some b) →
        b.timestamp = .num now) ∧
    (∀ (now : ℚ) (data : JsVal) (b : ParsedBook),
      parseBodyBybit now data = .ok (some b) →
        b.timestamp = if (data.get "ts").truthy then data.get "ts" else .num now) ∧
    (∀ (now : ℚ) (d : JsVal) (b : ParsedBook),
      parseBodyDeribit now d = .ok (some b) →
        b.timestamp =
          if (d.get "timestamp").truthy then d.get "timestamp" else .num now) := by
  refine ⟨?_, ?_, ?_⟩
  · intro jsonParse now message b h
    unfold parseMessageOKX at h
    split at h
    · exact absurd h (by simp)
    · split at h
      · exact absurd h (by simp)
      · replace h := jsTry_ok_some _ _ h
        split at h
        all_goals try exact absurd h (by simp)
        exact parseBodyOKX_timestamp _ _ _ h
  · exact parseBodyBybit_timestamp
  · exact parseBodyDeribit_timestamp

/-- Bybit data payload for the C7 witness, carrying `ts: 123`. -/
def c7BybitData : JsVal :=
  .obj [("a", .arr []), ("b", .arr []), ("ts", .num 123)]

/-- Deribit data payload for the C7 witness, with no `timestamp`
field. -/
def c7DeribitData : JsVal :=
  .obj [("bids", .arr []), ("asks", .arr [])]

/-- Witness for C7: a Bybit payload with `ts: 123` is stamped 123 (not
the wall clock 999), and a Deribit payload without a timestamp falls back to
the wall clock. -/
theorem normalize_timestamp_spec_witness :
    parseBodyBybit 999 c7BybitData = .ok (some ⟨[], [], .num 123⟩) ∧
    (⟨[], [], JsVal.num 123⟩ : ParsedBook).timestamp =
      (if (c7BybitData.get "ts").truthy then c7BybitData.get "ts" else .num 999) ∧
    parseBodyDeribit 999 c7DeribitData = .ok (some ⟨[], [], .num 999⟩) ∧
    (⟨[], [], JsVal.num 999⟩ : ParsedBook).timestamp =
      (if (c7DeribitData.get "timestamp").truthy then c7DeribitData.get "timestamp"
        else .num 999) := by
  have hb : parseBodyBybit 999 c7BybitData = .ok (some ⟨[], [], .num 123⟩) := rfl
  have hd : parseBodyDeribit 999 c7DeribitData = .ok (some ⟨[], [], .num 999⟩) := rfl
  exact ⟨hb, normalize_timestamp_spec.2.1 999 c7BybitData _ hb,
    hd, normalize_timestamp_spec.2.2 999 c7DeribitData _ hd⟩

end RTOB
